import Mathlib

/-!
Verification of the extraction-normalization pipeline of the shipping-bill
tracker (src/app.py).  Python strings are embedded as `List Char`; the helper
functions of app.py are translated below, together with a model of the
standard-library pieces they call (`str.strip`, `re.sub`, `re.search`,
`json.loads`).  The external generative-model call is an oracle parameter:
`none` models the call raising an exception, `some t` models a reply whose
`.text` is `t`.
-/

/-- Code points Python treats as whitespace for `str.strip()` and for the
regex class backslash-s on `str` patterns (`str.isspace`). -/
def pySpaceCodes : List Nat :=
  [9, 10, 11, 12, 13, 28, 29, 30, 31, 32, 133, 160, 5760,
   8192, 8193, 8194, 8195, 8196, 8197, 8198, 8199, 8200, 8201, 8202,
   8232, 8233, 8239, 8287, 12288]

/-- Whether a character is Python whitespace. -/
def isPySpace (c : Char) : Bool := pySpaceCodes.contains c.toNat

/-- Model of Python `str.strip()` (app.py line 29 and line 60): remove
leading and trailing whitespace. -/
def pyStrip (cs : List Char) : List Char :=
  ((cs.dropWhile isPySpace).reverse.dropWhile isPySpace).reverse

/-- Model of `re.sub(r"^```json\s*|```$", "", raw_text, flags=re.MULTILINE)`
(app.py line 64).  `re.sub` finds non-overlapping matches left to right in
the original string, preferring the first alternative at each position.
The first alternative requires line start (position 0 or just after a
newline), the literal three backticks followed by `json`, then a greedy run
of whitespace; the second requires the literal three backticks followed by
line end (end of string or a newline).  `atStart` records whether the
current position is a line start; the fuel argument is an upper bound on
the number of steps (each step consumes at least one character). -/
def subFences : Nat → Bool → List Char → List Char
  | 0, _, cs => cs
  | fuel + 1, atStart, cs =>
    match cs with
    | [] => []
    | c :: rest =>
      if atStart = true ∧ cs.take 7 = "```json".toList then
        let rest7 := cs.drop 7
        let ws := rest7.takeWhile isPySpace
        let newStart := match ws.getLast? with
          | some w => w == '\n'
          | none => false
        subFences fuel newStart (rest7.dropWhile isPySpace)
      else if cs.take 3 = "```".toList ∧ (cs.drop 3 = [] ∨ (cs.drop 3).head? = some '\n') then
        subFences fuel false (cs.drop 3)
      else
        c :: subFences fuel (c == '\n') rest

/-- Model of app.py lines 63-64: the fence-stripping `re.sub` runs only when
the stripped reply starts with three backticks. -/
def cleanFences (cs : List Char) : List Char :=
  if cs.take 3 = "```".toList then subFences (cs.length + 1) true cs else cs

/-- Largest index of `c` in the list, if any. -/
def lastIdxOf (c : Char) : List Char → Option Nat
  | [] => none
  | x :: xs =>
    match lastIdxOf c xs with
    | some k => some (k + 1)
    | none => if x = c then some 0 else none

/-- Model of `re.search(r"\[.*\]", raw_text, re.DOTALL)` (app.py line 67),
returning the matched substring.  `re.search` scans start positions left to
right; at a position holding an opening bracket the greedy dot-star makes
the match extend to the last closing bracket of the remaining text, and if
no closing bracket follows, the scan moves on. -/
def reSearchSpan : List Char → Option (List Char)
  | [] => none
  | c :: rest =>
    if c = '[' then
      match lastIdxOf ']' rest with
      | some k => some ('[' :: rest.take (k + 1))
      | none => reSearchSpan rest
    else reSearchSpan rest

/-- JSON values as returned by Python `json.loads`.  String content is kept
as a list of code points (Python allows lone surrogates from unicode
escapes, which a Lean `String` cannot hold).  Integer literals become
`int`; literals with a fraction or exponent, and the Python extensions
`NaN`, `Infinity`, `-Infinity`, become `float` and are kept as their
lexeme, since no observed behaviour depends on float arithmetic.  Objects
are association lists in CPython dict insertion order. -/
inductive Json where
  | null
  | bool (b : Bool)
  | int (n : Int)
  | float (lexeme : List Char)
  | str (codes : List Nat)
  | arr (elems : List Json)
  | obj (members : List (List Nat × Json))

/-- Code points of a Lean string literal, for writing JSON string values. -/
def jstr (s : String) : List Nat := s.toList.map Char.toNat

/-- The JSON inter-token whitespace accepted by Python's decoder. -/
def jsonWs (c : Char) : Bool := c == ' ' || c == '\t' || c == '\n' || c == '\r'

/-- Skip JSON whitespace. -/
def skipWs (cs : List Char) : List Char := cs.dropWhile jsonWs

/-- Value of a hexadecimal digit, both cases accepted. -/
def hexVal (c : Char) : Option Nat :=
  if 48 ≤ c.toNat ∧ c.toNat ≤ 57 then some (c.toNat - 48)
  else if 97 ≤ c.toNat ∧ c.toNat ≤ 102 then some (c.toNat - 87)
  else if 65 ≤ c.toNat ∧ c.toNat ≤ 70 then some (c.toNat - 55)
  else none

/-- Read four hexadecimal digits (the XXXX of a unicode escape). -/
def parse4Hex : List Char → Option (Nat × List Char)
  | a :: b :: c :: d :: rest => do
    let x ← hexVal a
    let y ← hexVal b
    let z ← hexVal c
    let w ← hexVal d
    some (4096 * x + 256 * y + 16 * z + w, rest)
  | _ => none

/-- Code point of a single-character escape in a JSON string. -/
def escCode (c : Char) : Option Nat :=
  if c = '"' then some 34
  else if c = '\\' then some 92
  else if c = '/' then some 47
  else if c = 'b' then some 8
  else if c = 'f' then some 12
  else if c = 'n' then some 10
  else if c = 'r' then some 13
  else if c = 't' then some 9
  else none

/-- Body of a JSON string after the opening quote, per Python
`json.decoder.py_scanstring` in strict mode: unescaped control characters
are rejected; a high-surrogate unicode escape immediately followed by a
low-surrogate escape combines into one code point, otherwise the lone
unit is kept as its own code point. -/
def parseStrBody : Nat → List Char → Option (List Nat × List Char)
  | 0, _ => none
  | fuel + 1, cs =>
    match cs with
    | [] => none
    | c :: rest =>
      if c = '"' then some ([], rest)
      else if c = '\\' then
        match rest with
        | [] => none
        | e :: rest2 =>
          if e = 'u' then
            match parse4Hex rest2 with
            | none => none
            | some (u, rest3) =>
              if 0xD800 ≤ u ∧ u ≤ 0xDBFF then
                match rest3 with
                | '\\' :: 'u' :: rest4 =>
                  match parse4Hex rest4 with
                  | none => none
                  | some (u2, rest5) =>
                    if 0xDC00 ≤ u2 ∧ u2 ≤ 0xDFFF then
                      match parseStrBody fuel rest5 with
                      | some (s, r) =>
                        some ((0x10000 + (u - 0xD800) * 1024 + (u2 - 0xDC00)) :: s, r)
                      | none => none
                    else
                      match parseStrBody fuel rest3 with
                      | some (s, r) => some (u :: s, r)
                      | none => none
                | _ =>
                  match parseStrBody fuel rest3 with
                  | some (s, r) => some (u :: s, r)
                  | none => none
              else
                match parseStrBody fuel rest3 with
                | some (s, r) => some (u :: s, r)
                | none => none
          else
            match escCode e with
            | some n =>
              match parseStrBody fuel rest2 with
              | some (s, r) => some (n :: s, r)
              | none => none
            | none => none
      else if c.toNat < 32 then none
      else
        match parseStrBody fuel rest with
        | some (s, r) => some (c.toNat :: s, r)
        | none => none

/-- Decimal value of a digit run. -/
def decDigitsVal (ds : List Char) : Nat :=
  ds.foldl (fun a c => a * 10 + (c.toNat - 48)) 0

/-- Model of the number branch of Python's scanner: the regex
`(-?(0|[1-9] digits))(. digits)? ([eE][+-]? digits)?`, yielding an `int`
when neither fraction nor exponent is present and a `float` lexeme
otherwise. -/
def parseNumber (cs : List Char) : Option (Json × List Char) :=
  let p := match cs with
    | '-' :: r => (true, r)
    | _ => (false, cs)
  let neg := p.1
  let cs1 := p.2
  match cs1 with
  | [] => none
  | c :: _ =>
    if c.isDigit then
      let q := if c = '0' then ([c], cs1.tail)
        else (cs1.takeWhile Char.isDigit, cs1.dropWhile Char.isDigit)
      let ip := q.1
      let rest1 := q.2
      let f := match rest1 with
        | '.' :: r =>
          let fd := r.takeWhile Char.isDigit
          if fd = [] then (([] : List Char), rest1)
          else ('.' :: fd, r.dropWhile Char.isDigit)
        | _ => (([] : List Char), rest1)
      let frac := f.1
      let rest2 := f.2
      let g := match rest2 with
        | e :: r =>
          if e = 'e' ∨ e = 'E' then
            let sr := match r with
              | '+' :: rr => ((['+'] : List Char), rr)
              | '-' :: rr => ((['-'] : List Char), rr)
              | _ => (([] : List Char), r)
            let ed := sr.2.takeWhile Char.isDigit
            if ed = [] then (([] : List Char), rest2)
            else (e :: (sr.1 ++ ed), sr.2.dropWhile Char.isDigit)
          else (([] : List Char), rest2)
        | [] => (([] : List Char), rest2)
      let ex := g.1
      let rest3 := g.2
      if frac = [] ∧ ex = [] then
        let n : Int := Int.ofNat (decDigitsVal ip)
        some (Json.int (if neg then -n else n), rest1)
      else
        some (Json.float ((if neg then ['-'] else []) ++ ip ++ frac ++ ex), rest3)
    else none

/-- CPython dict assignment on an insertion-ordered association list: a
repeated key keeps its original position but takes the new value. -/
def dictInsert (ms : List (List Nat × Json)) (k : List Nat) (v : Json) :
    List (List Nat × Json) :=
  match ms with
  | [] => [(k, v)]
  | (k0, v0) :: rest =>
    if k0 = k then (k0, v) :: rest else (k0, v0) :: dictInsert rest k v

mutual

/-- One JSON value at the current position (Python `scan_once`).  The fuel
decreases on every recursive call; `json_loads` supplies enough for any
input of the given length. -/
def parseValue : Nat → List Char → Option (Json × List Char)
  | 0, _ => none
  | fuel + 1, cs =>
    match cs with
    | [] => none
    | c :: rest =>
      if c = '"' then
        match parseStrBody fuel rest with
        | some (s, r) => some (Json.str s, r)
        | none => none
      else if c = '{' then parseObjStart fuel (skipWs rest)
      else if c = '[' then parseArrStart fuel (skipWs rest)
      else if cs.take 4 = "null".toList then some (Json.null, cs.drop 4)
      else if cs.take 4 = "true".toList then some (Json.bool true, cs.drop 4)
      else if cs.take 5 = "false".toList then some (Json.bool false, cs.drop 5)
      else if c = '-' ∨ c.isDigit then
        match parseNumber cs with
        | some vr => some vr
        | none =>
          if cs.take 9 = "-Infinity".toList then
            some (Json.float "-Infinity".toList, cs.drop 9)
          else none
      else if cs.take 3 = "NaN".toList then some (Json.float "NaN".toList, cs.drop 3)
      else if cs.take 8 = "Infinity".toList then some (Json.float "Infinity".toList, cs.drop 8)
      else none

/-- After an opening bracket with whitespace skipped: empty array or the
element loop. -/
def parseArrStart : Nat → List Char → Option (Json × List Char)
  | 0, _ => none
  | fuel + 1, cs =>
    match cs with
    | ']' :: r => some (Json.arr [], r)
    | _ =>
      match parseArrElems fuel cs with
      | some (vs, r) => some (Json.arr vs, r)
      | none => none

/-- Array element loop: value, then a comma and the next element or the
closing bracket.  A comma must be followed by a value (no trailing comma). -/
def parseArrElems : Nat → List Char → Option (List Json × List Char)
  | 0, _ => none
  | fuel + 1, cs =>
    match parseValue fuel cs with
    | none => none
    | some (v, r) =>
      match skipWs r with
      | ',' :: r2 =>
        match parseArrElems fuel (skipWs r2) with
        | some (vs, r3) => some (v :: vs, r3)
        | none => none
      | ']' :: r2 => some ([v], r2)
      | _ => none

/-- After an opening brace with whitespace skipped: empty object or the
member loop. -/
def parseObjStart : Nat → List Char → Option (Json × List Char)
  | 0, _ => none
  | fuel + 1, cs =>
    match cs with
    | '}' :: r => some (Json.obj [], r)
    | _ => parseObjMembers fuel cs []

/-- Object member loop: quoted key, colon, value, then a comma and the next
member or the closing brace; members accumulate with dict semantics. -/
def parseObjMembers : Nat → List Char → List (List Nat × Json) →
    Option (Json × List Char)
  | 0, _, _ => none
  | fuel + 1, cs, acc =>
    match cs with
    | '"' :: r =>
      match parseStrBody fuel r with
      | none => none
      | some (k, r1) =>
        match skipWs r1 with
        | ':' :: r2 =>
          match parseValue fuel (skipWs r2) with
          | none => none
          | some (v, r3) =>
            match skipWs r3 with
            | ',' :: r4 => parseObjMembers fuel (skipWs r4) (dictInsert acc k v)
            | '}' :: r4 => some (Json.obj (dictInsert acc k v), r4)
            | _ => none
        | _ => none
    | _ => none

end

/-- Model of Python `json.loads` (app.py lines 69 and 72): skip leading
whitespace, read one value, allow trailing whitespace only; `none` models
a raised `JSONDecodeError`. -/
def json_loads (cs : List Char) : Option Json :=
  match parseValue (8 * cs.length + 8) (skipWs cs) with
  | some (v, rest) => if skipWs rest = [] then some v else none
  | none => none

/-- Exceptions that the `try` block of `extract_shipping_details_with_ai`
can raise: a failure of the external generation call (or of reading its
`.text`), or a `JSONDecodeError` from `json.loads`. -/
inductive PyExc where
  | genFailure
  | jsonDecodeError

/-- Observable outcome of `extract_shipping_details_with_ai`: either the
value returned by `json.loads`, or the `except` branch, which shows
`st.error("AI Extraction Error: ...")` and returns the empty list
(app.py lines 74-76). -/
inductive NormOutcome where
  | ok (v : Json)
  | aiError

/-- The Python return value of each outcome: the decoded value on success,
the empty list from the `except` branch. -/
def NormOutcome.retVal : NormOutcome → Json
  | .ok v => v
  | .aiError => Json.arr []

/-- Body of the `try` block of `extract_shipping_details_with_ai`
(app.py lines 58-72).  `gen` is the external generative call: prompt
construction plus `model.generate_content(...).text`, collapsed into an
oracle from `batch_texts` to the reply text; `none` models the call
raising.  The reply is stripped, fence markers are removed when present,
the greedy bracket span is decoded when found, and otherwise the whole
cleaned text is decoded as a fallback. -/
def tryBody (gen : List (List Char × List Char) → Option (List Char))
    (batch_texts : List (List Char × List Char)) : Except PyExc Json :=
  match gen batch_texts with
  | none => Except.error PyExc.genFailure
  | some t =>
    let raw := pyStrip t
    let raw1 := cleanFences raw
    match reSearchSpan raw1 with
    | some sp =>
      match json_loads sp with
      | some v => Except.ok v
      | none => Except.error PyExc.jsonDecodeError
    | none =>
      match json_loads raw1 with
      | some v => Except.ok v
      | none => Except.error PyExc.jsonDecodeError

/-- `extract_shipping_details_with_ai` (app.py lines 33-76): the try body
with its catch-all `except`, which reports the generic error and returns
the empty list. -/
def extract_shipping_details_with_ai
    (gen : List (List Char × List Char) → Option (List Char))
    (batch_texts : List (List Char × List Char)) : NormOutcome :=
  match tryBody gen batch_texts with
  | Except.ok v => NormOutcome.ok v
  | Except.error _ => NormOutcome.aiError

/-- The cleaned reply text: `response.text.strip()` followed by the
conditional fence removal (app.py lines 60-64). -/
def cleanReply (reply : String) : List Char := cleanFences (pyStrip reply.toList)

/-- Normalization outcome as a function of the reply text alone (the
generation call succeeded and returned `reply`). -/
def aiOutcome (reply : String) : NormOutcome :=
  extract_shipping_details_with_ai (fun _ => some reply.toList) []

/-- Content of one uploaded PDF as seen by `extract_text_from_pdf`: either
its pages' text layers in page order, or a failure of `fitz` raising an
exception with message `e`. -/
inductive PdfContent where
  | pages (ps : List (List Char))
  | failure (e : List Char)

/-- `extract_text_from_pdf` (app.py lines 23-31): concatenate the pages'
text in page order and strip, or return the error-marked text when the
document cannot be read. -/
def extract_text_from_pdf : PdfContent → List Char
  | .pages ps => pyStrip (ps.foldl (fun acc p => acc ++ p) [])
  | .failure e => "Error reading PDF: ".toList ++ e

/-- The upload loop (app.py lines 89-103): each document contributes one
`(Source, Text)` entry, with the extracted text truncated to its first
15000 characters. -/
def buildBatch (docs : List (List Char × PdfContent)) :
    List (List Char × List Char) :=
  docs.map (fun d => (d.1, (extract_text_from_pdf d.2).take 15000))

/-- Observable behaviour of one script run: whether the missing-credential
error was shown at startup, whether the document pipeline ran, and the
normalization outcome when it did. -/
structure ScriptRun where
  configErrorShown : Bool
  pipelineRan : Bool
  results : Option NormOutcome

/-- The module-level script (app.py lines 12-15 and 86-105).  When the
credential is absent from the secret store, `st.error` shows a
configuration message, and the script continues: there is no `st.stop`
and no raise, so the uploader, the button, and the extraction pipeline
run exactly as with a credential. -/
def runScript (hasKey : Bool) (docs : List (List Char × PdfContent))
    (clicked : Bool)
    (gen : List (List Char × List Char) → Option (List Char)) : ScriptRun :=
  { configErrorShown := !hasKey
    pipelineRan := !docs.isEmpty && clicked
    results :=
      if !docs.isEmpty && clicked then
        some (extract_shipping_details_with_ai gen (buildBatch docs))
      else none }

/-- A character list with neither a leading nor a trailing Python
whitespace character. -/
def noEdgeSpace (cs : List Char) : Bool :=
  (match cs.head? with
   | some c => !(isPySpace c)
   | none => true)
  && (match cs.getLast? with
      | some c => !(isPySpace c)
      | none => true)

theorem lastIdxOf_eq_none {c : Char} {cs : List Char} (h : c ∉ cs) :
    lastIdxOf c cs = none := by
  induction cs with
  | nil => rfl
  | cons x xs ih =>
    have hx : ¬(x = c) := fun he => h (he ▸ List.mem_cons_self x xs)
    have h2 : c ∉ xs := fun hm => h (List.mem_cons_of_mem _ hm)
    simp [lastIdxOf, ih h2, hx]

theorem lastIdxOf_append_last {p2 : List Char} (mid : List Char)
    (h : ']' ∉ p2) : lastIdxOf ']' (mid ++ ']' :: p2) = some mid.length := by
  induction mid with
  | nil => simp [lastIdxOf, lastIdxOf_eq_none h]
  | cons m ms ih => simp [lastIdxOf, ih]

theorem take_to_last (mid p2 : List Char) :
    (mid ++ ']' :: p2).take (mid.length + 1) = mid ++ [']'] := by
  induction mid with
  | nil => rfl
  | cons m ms ih => simpa using ih

theorem reSearchSpan_embedded (p1 mid p2 : List Char)
    (h1 : '[' ∉ p1) (h2 : ']' ∉ p2) :
    reSearchSpan (p1 ++ '[' :: (mid ++ ']' :: p2))
      = some ('[' :: (mid ++ [']'])) := by
  induction p1 with
  | nil => simp [reSearchSpan, lastIdxOf_append_last mid h2, take_to_last]
  | cons x xs ih =>
    have hx : ¬(x = '[') := fun he => h1 (he ▸ List.mem_cons_self x xs)
    have h1' : '[' ∉ xs := fun hm => h1 (List.mem_cons_of_mem _ hm)
    simpa [reSearchSpan, hx] using ih h1'

theorem lastIdxOf_mem {c : Char} :
    ∀ {cs : List Char} {k : Nat}, lastIdxOf c cs = some k → cs.get? k = some c := by
  intro cs
  induction cs with
  | nil => intro k h; simp [lastIdxOf] at h
  | cons x xs ih =>
    intro k h
    simp only [lastIdxOf] at h
    cases hx : lastIdxOf c xs with
    | some k0 =>
      rw [hx] at h
      obtain rfl : k = k0 + 1 := by cases h; rfl
      simpa using ih hx
    | none =>
      rw [hx] at h
      by_cases he : x = c
      · rw [if_pos he] at h
        obtain rfl : k = 0 := by cases h; rfl
        simp [he]
      · rw [if_neg he] at h
        cases h

theorem lastIdxOf_none_get {c : Char} :
    ∀ {cs : List Char}, lastIdxOf c cs = none → ∀ j, cs.get? j ≠ some c := by
  intro cs
  induction cs with
  | nil => intro _ j; simp
  | cons x xs ih =>
    intro h j
    simp only [lastIdxOf] at h
    cases hx : lastIdxOf c xs with
    | some k0 => rw [hx] at h; cases h
    | none =>
      rw [hx] at h
      have he : ¬(x = c) := by
        intro he; rw [if_pos he] at h; cases h
      cases j with
      | zero => simpa using he
      | succ j0 => simpa using ih hx j0

theorem lastIdxOf_last {c : Char} :
    ∀ {cs : List Char} {k : Nat}, lastIdxOf c cs = some k →
    ∀ j, k < j → cs.get? j ≠ some c := by
  intro cs
  induction cs with
  | nil => intro k _ j _; simp
  | cons x xs ih =>
    intro k h j hj
    simp only [lastIdxOf] at h
    cases hx : lastIdxOf c xs with
    | some k0 =>
      rw [hx] at h
      obtain rfl : k = k0 + 1 := by cases h; rfl
      obtain ⟨j0, rfl⟩ : ∃ j0, j = j0 + 1 := ⟨j - 1, by omega⟩
      simpa using ih hx j0 (by omega)
    | none =>
      rw [hx] at h
      obtain ⟨j0, rfl⟩ : ∃ j0, j = j0 + 1 := ⟨j - 1, by omega⟩
      simpa using lastIdxOf_none_get hx j0

theorem lastIdxOf_exists {c : Char} :
    ∀ {cs : List Char} {j : Nat}, cs.get? j = some c →
    ∃ k, lastIdxOf c cs = some k ∧ j ≤ k := by
  intro cs
  induction cs with
  | nil => intro j h; simp at h
  | cons x xs ih =>
    intro j h
    cases j with
    | zero =>
      have hx : x = c := by simpa using h
      cases hk : lastIdxOf c xs with
      | some k0 => exact ⟨k0 + 1, by simp [lastIdxOf, hk], by omega⟩
      | none => exact ⟨0, by simp [lastIdxOf, hk, hx], Nat.le_refl 0⟩
    | succ j0 =>
      have h' : xs.get? j0 = some c := by simpa using h
      obtain ⟨k, hk, hle⟩ := ih h'
      exact ⟨k + 1, by simp [lastIdxOf, hk], by omega⟩

theorem dropWhile_head_not (p : Char → Bool) :
    ∀ (l : List Char) (c : Char), (l.dropWhile p).head? = some c → p c = false := by
  intro l
  induction l with
  | nil => intro c h; simp [List.dropWhile] at h
  | cons x xs ih =>
    intro c h
    by_cases hx : p x
    · rw [List.dropWhile_cons_of_pos hx] at h
      exact ih c h
    · rw [List.dropWhile_cons_of_neg hx] at h
      have : x = c := by simpa using h
      subst this
      simpa using hx

theorem dropWhile_getLast (p : Char → Bool) :
    ∀ (l : List Char), l.dropWhile p ≠ [] →
    (l.dropWhile p).getLast? = l.getLast? := by
  intro l
  induction l with
  | nil => intro h; simp [List.dropWhile] at h
  | cons x xs ih =>
    intro h
    by_cases hx : p x
    · rw [List.dropWhile_cons_of_pos hx] at h ⊢
      rw [ih h]
      have hxs : xs ≠ [] := by
        intro he
        subst he
        simp [List.dropWhile] at h
      cases xs with
      | nil => exact absurd rfl hxs
      | cons y ys => simp [List.getLast?_cons_cons]
    · rw [List.dropWhile_cons_of_neg hx]

theorem pyStrip_noEdge (x : List Char) : noEdgeSpace (pyStrip x) = true := by
  unfold pyStrip noEdgeSpace
  by_cases hvnil : (x.dropWhile isPySpace).reverse.dropWhile isPySpace = []
  · simp [hvnil]
  · rw [List.head?_reverse, List.getLast?_reverse]
    have h1 : ((x.dropWhile isPySpace).reverse.dropWhile isPySpace).getLast?
        = (x.dropWhile isPySpace).head? := by
      rw [dropWhile_getLast _ _ hvnil, List.getLast?_reverse]
    rw [h1]
    cases hgl : (x.dropWhile isPySpace).head? with
    | none =>
      cases hhd : ((x.dropWhile isPySpace).reverse.dropWhile isPySpace).head? with
      | none => rfl
      | some c => simp [dropWhile_head_not isPySpace _ c hhd]
    | some c =>
      have hc : isPySpace c = false := dropWhile_head_not isPySpace x c hgl
      cases hhd : ((x.dropWhile isPySpace).reverse.dropWhile isPySpace).head? with
      | none => simp [hc]
      | some c2 => simp [hc, dropWhile_head_not isPySpace _ c2 hhd]

theorem foldl_append_eq_join :
    ∀ (ps : List (List Char)) (acc : List Char),
    ps.foldl (fun a p => a ++ p) acc = acc ++ ps.flatten := by
  intro ps
  induction ps with
  | nil => intro acc; simp
  | cons q qs ih => intro acc; simp [ih, List.append_assoc]

/-- C4: for every cleaned reply text containing an opening bracket followed
later by a closing bracket, the span located by the greedy multi-line
search is exactly the substring from the first opening bracket in the text
to the last closing bracket in the text. -/
theorem c4_span_first_to_last :
    ∀ (cs : List Char) (i j : Nat), i < j →
    cs.get? i = some '[' → cs.get? j = some ']' →
    ∃ a b, a < b ∧ cs.get? a = some '['
      ∧ (∀ a', a' < a → cs.get? a' ≠ some '[')
      ∧ cs.get? b = some ']'
      ∧ (∀ b', b < b' → cs.get? b' ≠ some ']')
      ∧ reSearchSpan cs = some ((cs.drop a).take (b + 1 - a)) := by
  intro cs
  induction cs with
  | nil => intro i j _ hi _; simp at hi
  | cons x xs ih =>
    intro i j hij hi hj
    by_cases hx : x = '['
    · subst hx
      obtain ⟨j', rfl⟩ : ∃ j', j = j' + 1 := ⟨j - 1, by omega⟩
      have hj' : xs.get? j' = some ']' := by simpa using hj
      obtain ⟨k, hk, hjk⟩ := lastIdxOf_exists hj'
      refine ⟨0, k + 1, by omega, rfl, fun a' ha' => absurd ha' (by omega),
        by simpa using lastIdxOf_mem hk, ?_, ?_⟩
      · intro b' hb'
        obtain ⟨b0, rfl⟩ : ∃ b0, b' = b0 + 1 := ⟨b' - 1, by omega⟩
        simpa using lastIdxOf_last hk b0 (by omega)
      · simp [reSearchSpan, hk]
    · have hi0 : i ≠ 0 := by
        intro h0
        subst h0
        exact hx (by simpa using hi)
      obtain ⟨i', rfl⟩ : ∃ i', i = i' + 1 := ⟨i - 1, by omega⟩
      obtain ⟨j', rfl⟩ : ∃ j', j = j' + 1 := ⟨j - 1, by omega⟩
      have hi' : xs.get? i' = some '[' := by simpa using hi
      have hj' : xs.get? j' = some ']' := by simpa using hj
      obtain ⟨a, b, hab, ha, hfa, hb, hlb, hspan⟩ := ih i' j' (by omega) hi' hj'
      refine ⟨a + 1, b + 1, by omega, by simpa using ha, ?_, by simpa using hb, ?_, ?_⟩
      · intro a' ha'
        cases a' with
        | zero => simpa using hx
        | succ a'' => simpa using hfa a'' (by omega)
      · intro b' hb'
        obtain ⟨b0, rfl⟩ : ∃ b0, b' = b0 + 1 := ⟨b' - 1, by omega⟩
        simpa using hlb b0 (by omega)
      · have hr : reSearchSpan (x :: xs) = reSearchSpan xs := by
          simp [reSearchSpan, hx]
        rw [hr, hspan]
        simp [Nat.succ_sub_succ]

/-- Witness for C4 at a concrete cleaned reply. -/
theorem c4_witness :
    ∃ a b, a < b ∧ "ab[1]c".toList.get? a = some '['
      ∧ (∀ a', a' < a → "ab[1]c".toList.get? a' ≠ some '[')
      ∧ "ab[1]c".toList.get? b = some ']'
      ∧ (∀ b', b < b' → "ab[1]c".toList.get? b' ≠ some ']')
      ∧ reSearchSpan "ab[1]c".toList
          = some (("ab[1]c".toList.drop a).take (b + 1 - a)) :=
  c4_span_first_to_last "ab[1]c".toList 2 4 (by omega) (by decide) (by decide)

/-- C1 (amended): normalization recovers exactly the contents of an
embedded well-formed JSON array provided the surrounding text has no
opening bracket before the array and no closing bracket after it (the
greedy span otherwise swallows the stray bracket and decoding fails); in
particular the prose-wrapped spec scenario holds. -/
theorem c1_array_recovery :
    (∀ (reply : String) (p1 mid p2 : List Char) (vs : List Json),
      cleanReply reply = p1 ++ '[' :: (mid ++ ']' :: p2) →
      '[' ∉ p1 → ']' ∉ p2 →
      json_loads ('[' :: (mid ++ [']'])) = some (Json.arr vs) →
      aiOutcome reply = NormOutcome.ok (Json.arr vs))
    ∧ aiOutcome "Here is the result: [\x7b\"a\":1\x7d] Let me know if you need more."
        = NormOutcome.ok (Json.arr [Json.obj [(jstr "a", Json.int 1)]]) := by
  refine ⟨?_, rfl⟩
  intro reply p1 mid p2 vs hC h1 h2 hJ
  simp only [cleanReply] at hC
  simp only [aiOutcome, extract_shipping_details_with_ai, tryBody, hC,
    reSearchSpan_embedded p1 mid p2 h1 h2, hJ]

/-- Witness for C1: the code-fenced spec scenario, through the amended
universal statement. -/
theorem c1_witness :
    aiOutcome "```json\n[\x7b\"SB No\": \"123\", \"LUT\": \"Y\"\x7d]\n```"
      = NormOutcome.ok (Json.arr [Json.obj [(jstr "SB No", Json.str (jstr "123")),
          (jstr "LUT", Json.str (jstr "Y"))]]) :=
  c1_array_recovery.1 _ [] "\x7b\"SB No\": \"123\", \"LUT\": \"Y\"\x7d".toList ['\n'] _
    (by rfl) (by simp) (by simp) (by rfl)

/-- Counterexample to C1 as stated: a well-formed JSON array embedded in
prose that itself contains a bracket is not recovered; the greedy span
starts at the prose bracket, decoding fails, and the error branch runs. -/
theorem c1_counterexample :
    aiOutcome "Options[0]: [\x7b\"a\":1\x7d]" = NormOutcome.aiError
    ∧ NormOutcome.aiError
        ≠ NormOutcome.ok (Json.arr [Json.obj [(jstr "a", Json.int 1)]]) :=
  ⟨rfl, fun h => NormOutcome.noConfusion h⟩

/-- C2 (amended): a reply with no bracket span whose cleaned text is not
itself valid JSON makes `json.loads` raise on the whole text; the caught
exception returns the empty list, with the generic error signal rather
than a distinct non-failure signal. -/
theorem c2_no_span_not_json :
    ∀ (reply : String),
    reSearchSpan (cleanReply reply) = none →
    json_loads (cleanReply reply) = none →
    aiOutcome reply = NormOutcome.aiError
      ∧ NormOutcome.retVal NormOutcome.aiError = Json.arr [] := by
  intro reply h1 h2
  simp only [cleanReply] at h1 h2
  refine ⟨?_, rfl⟩
  simp only [aiOutcome, extract_shipping_details_with_ai, tryBody, h1, h2]

/-- Witness for C2 at the spec scenario reply. -/
theorem c2_witness :
    aiOutcome "No data available." = NormOutcome.aiError
      ∧ NormOutcome.retVal NormOutcome.aiError = Json.arr [] :=
  c2_no_span_not_json "No data available." (by rfl) (by rfl)

/-- Counterexample to C2 as stated: a span-free reply that is valid JSON
returns the decoded non-empty value, not an empty result set; and the
span-free scenario reply lands in the same error outcome as a decode
failure, so its signal is not a distinct non-failure signal. -/
theorem c2_counterexample :
    aiOutcome "\x7b\"a\": 1\x7d" = NormOutcome.ok (Json.obj [(jstr "a", Json.int 1)])
    ∧ NormOutcome.ok (Json.obj [(jstr "a", Json.int 1)])
        ≠ NormOutcome.ok (Json.arr [])
    ∧ aiOutcome "No data available." = NormOutcome.aiError
    ∧ aiOutcome "[1,]" = NormOutcome.aiError :=
  ⟨rfl, fun h => by
      injection h with h2
      exact Json.noConfusion h2,
    rfl, rfl⟩

/-- C3 (amended): a syntactically invalid bracket span makes `json.loads`
raise; the caught exception yields the generic error outcome and the empty
list — the very same signal the no-data case produces, so the two
conditions are not distinguishable. -/
theorem c3_invalid_span_error :
    ∀ (reply : String) (sp : List Char),
    reSearchSpan (cleanReply reply) = some sp →
    json_loads sp = none →
    aiOutcome reply = NormOutcome.aiError := by
  intro reply sp h1 h2
  simp only [cleanReply] at h1
  simp only [aiOutcome, extract_shipping_details_with_ai, tryBody, h1, h2]

/-- Witness for C3 at a reply whose span has a trailing comma. -/
theorem c3_witness : aiOutcome "[1,]" = NormOutcome.aiError :=
  c3_invalid_span_error "[1,]" "[1,]".toList (by rfl) (by rfl)

/-- Counterexample to C3 as stated: an invalid-span reply and a no-data
reply produce the identical outcome (same error message path, same empty
return), so no distinct signals exist. -/
theorem c3_counterexample :
    aiOutcome "[not json]" = NormOutcome.aiError
    ∧ aiOutcome "No data found anywhere" = NormOutcome.aiError :=
  ⟨rfl, rfl⟩

/-- C5 (amended): an extraction failure for one document only substitutes
that document's text with the error-marked text; the batch keeps one entry
per document and the entries of the other documents are unchanged, and the
single batched model call proceeds identically. -/
theorem c5_extraction_isolation :
    ∀ (pre post : List (List Char × PdfContent)) (nm e : List Char)
      (gen : List (List Char × List Char) → Option (List Char)),
    buildBatch (pre ++ (nm, PdfContent.failure e) :: post)
      = buildBatch pre
        ++ (nm, ("Error reading PDF: ".toList ++ e).take 15000) :: buildBatch post
    ∧ extract_shipping_details_with_ai gen
        (buildBatch (pre ++ (nm, PdfContent.failure e) :: post))
      = extract_shipping_details_with_ai gen
        (buildBatch pre
          ++ (nm, ("Error reading PDF: ".toList ++ e).take 15000) :: buildBatch post) := by
  intro pre post nm e gen
  have h : buildBatch (pre ++ (nm, PdfContent.failure e) :: post)
      = buildBatch pre
        ++ (nm, ("Error reading PDF: ".toList ++ e).take 15000) :: buildBatch post := by
    simp [buildBatch, extract_text_from_pdf]
  exact ⟨h, congrArg _ h⟩

/-- Counterexample to C5 as stated: all documents share one batched model
call, so one malformed batched reply discards the records of every
document — here the reply already holds a complete, decodable record for
the first document, yet the final result is the empty list. -/
theorem c5_counterexample :
    extract_shipping_details_with_ai
        (fun _ => some "[\x7b\"Source\": \"a.pdf\", \"SB No\": \"1\"\x7d, \x7b\"Source\": \"b.pdf\",".toList)
        (buildBatch [("a.pdf".toList, PdfContent.pages ["TEXT A".toList]),
                     ("b.pdf".toList, PdfContent.pages ["TEXT B".toList])])
      = NormOutcome.aiError
    ∧ NormOutcome.retVal NormOutcome.aiError = Json.arr []
    ∧ json_loads "[\x7b\"Source\": \"a.pdf\", \"SB No\": \"1\"\x7d]".toList
        = some (Json.arr [Json.obj [(jstr "Source", Json.str (jstr "a.pdf")),
            (jstr "SB No", Json.str (jstr "1"))]]) :=
  ⟨rfl, rfl, rfl⟩

/-- C6: text extraction returns the page texts concatenated in page order
and stripped of leading and trailing whitespace; a failing document gets
the error-marked text substituted, and the batch keeps its length with
that entry in place. -/
theorem c6_text_extraction :
    (∀ ps : List (List Char),
      extract_text_from_pdf (PdfContent.pages ps) = pyStrip ps.flatten)
    ∧ (∀ ps : List (List Char),
      noEdgeSpace (extract_text_from_pdf (PdfContent.pages ps)) = true)
    ∧ (∀ e : List Char,
      extract_text_from_pdf (PdfContent.failure e)
        = "Error reading PDF: ".toList ++ e)
    ∧ (∀ (pre post : List (List Char × PdfContent)) (nm e : List Char),
      (buildBatch (pre ++ (nm, PdfContent.failure e) :: post)).length
          = pre.length + 1 + post.length
      ∧ (buildBatch (pre ++ (nm, PdfContent.failure e) :: post))[pre.length]?
          = some (nm, ("Error reading PDF: ".toList ++ e).take 15000)) := by
  refine ⟨?_, fun ps => pyStrip_noEdge _, fun e => rfl, ?_⟩
  · intro ps
    simp [extract_text_from_pdf, foldl_append_eq_join]
  · intro pre post nm e
    have h : buildBatch (pre ++ (nm, PdfContent.failure e) :: post)
        = buildBatch pre
          ++ (nm, ("Error reading PDF: ".toList ++ e).take 15000) :: buildBatch post := by
      simp [buildBatch, extract_text_from_pdf]
    have hl : (buildBatch pre).length = pre.length := by simp [buildBatch]
    constructor
    · simp [buildBatch]
      omega
    · rw [h, List.getElem?_append_right (by omega)]
      simp [hl]

/-- C7 (amended): a missing credential shows a visible configuration error
without crashing, but does not block processing — the pipeline's behaviour
is identical with and without the credential. -/
theorem c7_config_error_visible :
    ∀ (docs : List (List Char × PdfContent)) (clicked : Bool)
      (gen : List (List Char × List Char) → Option (List Char)),
    (runScript false docs clicked gen).configErrorShown = true
    ∧ (runScript true docs clicked gen).configErrorShown = false
    ∧ (runScript false docs clicked gen).pipelineRan
        = (runScript true docs clicked gen).pipelineRan
    ∧ (runScript false docs clicked gen).results
        = (runScript true docs clicked gen).results := by
  intro docs clicked gen
  exact ⟨rfl, rfl, rfl, rfl⟩

/-- Counterexample to C7 as stated: with the credential absent, the
configuration error is shown yet the document pipeline still runs to a
result, so processing is not blocked. -/
theorem c7_counterexample :
    (runScript false [("a.pdf".toList, PdfContent.pages ["T".toList])] true
        (fun _ => some "[]".toList)).configErrorShown = true
    ∧ (runScript false [("a.pdf".toList, PdfContent.pages ["T".toList])] true
        (fun _ => some "[]".toList)).pipelineRan = true
    ∧ (runScript false [("a.pdf".toList, PdfContent.pages ["T".toList])] true
        (fun _ => some "[]".toList)).results = some (NormOutcome.ok (Json.arr [])) :=
  ⟨rfl, rfl, rfl⟩

/-- C8: a located span that decodes to the empty JSON array yields the
empty array through the success branch, an outcome distinct from the error
outcome. -/
theorem c8_empty_array :
    ∀ (reply : String) (sp : List Char),
    reSearchSpan (cleanReply reply) = some sp →
    json_loads sp = some (Json.arr []) →
    aiOutcome reply = NormOutcome.ok (Json.arr [])
      ∧ NormOutcome.ok (Json.arr []) ≠ NormOutcome.aiError := by
  intro reply sp h1 h2
  simp only [cleanReply] at h1
  refine ⟨?_, fun h => NormOutcome.noConfusion h⟩
  simp only [aiOutcome, extract_shipping_details_with_ai, tryBody, h1, h2]

/-- Witness for C8 at the reply consisting of an empty array. -/
theorem c8_witness :
    aiOutcome "[]" = NormOutcome.ok (Json.arr [])
      ∧ NormOutcome.ok (Json.arr []) ≠ NormOutcome.aiError :=
  c8_empty_array "[]" "[]".toList (by rfl) (by rfl)

/-- C9: a reply with no bracket span whose cleaned text parses as JSON
returns the decoded value as is, array or not. -/
theorem c9_fallback_whole_reply :
    ∀ (reply : String) (v : Json),
    reSearchSpan (cleanReply reply) = none →
    json_loads (cleanReply reply) = some v →
    aiOutcome reply = NormOutcome.ok v := by
  intro reply v h1 h2
  simp only [cleanReply] at h1 h2
  simp only [aiOutcome, extract_shipping_details_with_ai, tryBody, h1, h2]

/-- Witness for C9 at a lone JSON object reply. -/
theorem c9_witness :
    aiOutcome "\x7b\"a\": 1\x7d" = NormOutcome.ok (Json.obj [(jstr "a", Json.int 1)]) :=
  c9_fallback_whole_reply "\x7b\"a\": 1\x7d" (Json.obj [(jstr "a", Json.int 1)])
    (by rfl) (by rfl)

/-- C10: every exception of the try body — a failing generation call or a
`JSONDecodeError` — is caught, and the function returns the empty list
instead of propagating. -/
theorem c10_exceptions_caught :
    ∀ (gen : List (List Char × List Char) → Option (List Char))
      (bt : List (List Char × List Char)) (e : PyExc),
    tryBody gen bt = Except.error e →
    extract_shipping_details_with_ai gen bt = NormOutcome.aiError
      ∧ NormOutcome.retVal NormOutcome.aiError = Json.arr [] := by
  intro gen bt e h
  refine ⟨?_, rfl⟩
  simp only [extract_shipping_details_with_ai, h]

/-- Witness for C10 at a generation call that raises. -/
theorem c10_witness :
    extract_shipping_details_with_ai (fun _ => none) [] = NormOutcome.aiError
      ∧ NormOutcome.retVal NormOutcome.aiError = Json.arr [] :=
  c10_exceptions_caught (fun _ => none) [] PyExc.genFailure rfl
